import Mathlib

/-!
# Verification of the AyurTrace backend core (`src/server.js`)

A shallow embedding of the core logic of the AyurTrace traceability
backend: canonical JSON serialization (`stableStringify`), SHA-256
hashing (`sha256Hex`), batch-identity derivation (`speciesCodeFor`,
`makeBatchId`), and the store-mutating request handlers
(`/collection`, `/processing`, `/labtest`, `/batches/:id/chain-status`).

The record store (MongoDB) is modelled as in-memory lists of records;
`updateOne` / `updateMany` / `findOne` / `create` are modelled with
their documented semantics ($set, $setOnInsert, upsert, first-match).
JavaScript numbers that the claims depend on are modelled as `Int` / `ℚ`;
timestamps are epoch milliseconds (`Int`), derived from calendar
components by the standard civil-calendar conversion that ECMAScript
`Date` prescribes.  The ambient host timezone offset (relevant for
`new Date(s)` on strings without an explicit offset, which ECMA-262
interprets as local time) is passed explicitly as `hostOffsetMin`.
-/

/-! ## JSON values and `stableStringify` (server.js lines 208-213)

JavaScript objects are modelled as association lists in insertion
order; arrays as lists; numbers as integers (the claims only exercise
integers); `JSON.stringify` string escaping is reproduced. -/

inductive JsonVal where
  | null
  | bool (b : Bool)
  | num (n : Int)
  | str (s : String)
  | arr (xs : List JsonVal)
  | obj (fs : List (String × JsonVal))

/-- Lowercase hex digit for `n < 16`. -/
def hexDigitChar (n : Nat) : Char :=
  if n < 10 then Char.ofNat (48 + n) else Char.ofNat (87 + n)

/-- Two lowercase hex digits of a byte, as `JSON.stringify` and
`Buffer.toString("hex")` produce. -/
def hexByte (n : Nat) : String :=
  String.mk [hexDigitChar (n / 16), hexDigitChar (n % 16)]

/-- `JSON.stringify` escaping of a single character. -/
def escChar (c : Char) : String :=
  if c = '"' then "\\\""
  else if c = '\\' then "\\\\"
  else if c = Char.ofNat 8 then "\\b"
  else if c = Char.ofNat 9 then "\\t"
  else if c = Char.ofNat 10 then "\\n"
  else if c = Char.ofNat 12 then "\\f"
  else if c = Char.ofNat 13 then "\\r"
  else if c.toNat < 32 then "\\u00" ++ hexByte c.toNat
  else String.singleton c

/-- `JSON.stringify` of a string value. -/
def jsonQuote (s : String) : String :=
  "\"" ++ String.join (s.data.map escChar) ++ "\""

/-- Code-unit comparison of character lists: the order used by the
default comparator of JavaScript `Array.prototype.sort` on strings. -/
def charListLe : List Char → List Char → Bool
  | [], _ => true
  | _ :: _, [] => false
  | a :: as, b :: bs =>
    if a.toNat < b.toNat then true
    else if b.toNat < a.toNat then false
    else charListLe as bs

/-- String order used by `Object.keys(obj).sort()`. -/
def strLe (a b : String) : Bool := charListLe a.data b.data

/-- `Array.prototype.join(",")`. -/
def joinComma : List String → String
  | [] => ""
  | [s] => s
  | s :: rest => s ++ "," ++ joinComma rest

/-- The relation `Object.keys(obj).sort()` sorts by: code-unit order
of the raw keys. -/
def keyRel (a b : String × String) : Prop := strLe a.1 b.1 = true

instance : DecidableRel keyRel := fun a b => inferInstanceAs (Decidable (strLe a.1 b.1 = true))

/-- Sort serialized key/value pairs by raw key (`Object.keys(obj).sort()`).
The source sorts the keys and then serializes each value; since each
pair is serialized independently, sorting the already-serialized pairs
by their raw key yields the identical output string. -/
def sortSer (l : List (String × String)) : List (String × String) :=
  List.insertionSort keyRel l

mutual
/-- server.js 208-213: canonical, key-sorted JSON serialization. -/
def stableStringify : JsonVal → String
  | .null => "null"
  | .bool b => if b then "true" else "false"
  | .num n => toString n
  | .str s => jsonQuote s
  | .arr xs => "[" ++ joinComma (serList xs) ++ "]"
  | .obj l =>
    "\x7b" ++ joinComma ((sortSer (serPairs l)).map (fun p => jsonQuote p.1 ++ ":" ++ p.2)) ++ "\x7d"

/-- Elementwise serialization of an array's elements, in order. -/
def serList : List JsonVal → List String
  | [] => []
  | x :: xs => stableStringify x :: serList xs

/-- Serialize each field's value, keeping the raw key alongside. -/
def serPairs : List (String × JsonVal) → List (String × String)
  | [] => []
  | (k, v) :: xs => (k, stableStringify v) :: serPairs xs
end

/-! ## SHA-256 (server.js line 214: `sha256Hex`)

`crypto.createHash("sha256").update(v).digest("hex")` — FIPS 180-4
SHA-256 over the UTF-8 bytes of the input, lowercase hex output.
32-bit words are `Nat` reduced mod `2^32`. -/

def w32 (n : Nat) : Nat := n % 4294967296

def rotr (n x : Nat) : Nat := w32 ((x >>> n) ||| (x <<< (32 - n)))

def bsig0 (x : Nat) : Nat := (rotr 2 x) ^^^ (rotr 13 x) ^^^ (rotr 22 x)

def bsig1 (x : Nat) : Nat := (rotr 6 x) ^^^ (rotr 11 x) ^^^ (rotr 25 x)

def ssig0 (x : Nat) : Nat := (rotr 7 x) ^^^ (rotr 18 x) ^^^ (x >>> 3)

def ssig1 (x : Nat) : Nat := (rotr 17 x) ^^^ (rotr 19 x) ^^^ (x >>> 10)

/-- The 64 SHA-256 round constants. -/
def shaK : List Nat :=
  [1116352408, 1899447441, 3049323471, 3921009573,
   961987163, 1508970993, 2453635748, 2870763221,
   3624381080, 310598401, 607225278, 1426881987,
   1925078388, 2162078206, 2614888103, 3248222580,
   3835390401, 4022224774, 264347078, 604807628,
   770255983, 1249150122, 1555081692, 1996064986,
   2554220882, 2821834349, 2952996808, 3210313671,
   3336571891, 3584528711, 113926993, 338241895,
   666307205, 773529912, 1294757372, 1396182291,
   1695183700, 1986661051, 2177026350, 2456956037,
   2730485921, 2820302411, 3259730800, 3345764771,
   3516065817, 3600352804, 4094571909, 275423344,
   430227734, 506948616, 659060556, 883997877,
   958139571, 1322822218, 1537002063, 1747873779,
   1955562222, 2024104815, 2227730452, 2361852424,
   2428436474, 2756734187, 3204031479, 3329325298]

structure Hash8 where
  h0 : Nat
  h1 : Nat
  h2 : Nat
  h3 : Nat
  h4 : Nat
  h5 : Nat
  h6 : Nat
  h7 : Nat

def shaInit : Hash8 :=
  ⟨1779033703, 3144134277, 1013904242, 2773480762, 1359893119, 2600822924, 528734635, 1541459225⟩

/-- `k` big-endian bytes of `n`. -/
def beBytes : Nat → Nat → List Nat
  | 0, _ => []
  | k + 1, n => beBytes k (n / 256) ++ [n % 256]

/-- SHA-256 padding: append `0x80`, zeros to 56 mod 64, then the 64-bit
big-endian bit length. -/
def padMsg (msg : List Nat) : List Nat :=
  let padLen := (119 - msg.length % 64) % 64
  msg ++ [0x80] ++ List.replicate padLen 0 ++ beBytes 8 (msg.length * 8)

def bytesToWords : List Nat → List Nat
  | b0 :: b1 :: b2 :: b3 :: rest =>
    (b0 * 16777216 + b1 * 65536 + b2 * 256 + b3) :: bytesToWords rest
  | _ => []

/-- Split into 64-byte blocks (fuel-indexed for structural recursion;
each round consumes at least one byte, so `fuel = length` suffices). -/
def chunks64Go : Nat → List Nat → List (List Nat)
  | 0, _ => []
  | _, [] => []
  | fuel + 1, a :: rest => (a :: rest).take 64 :: chunks64Go fuel ((a :: rest).drop 64)

def chunks64 (l : List Nat) : List (List Nat) := chunks64Go l.length l

/-- One message-schedule extension step: `w[t] := σ1 w[t-2] + w[t-7] + σ0 w[t-15] + w[t-16]`. -/
def schedStep (ws : List Nat) : List Nat :=
  let n := ws.length
  let t := w32 (ssig1 (ws.getD (n - 2) 0) + ws.getD (n - 7) 0 +
                ssig0 (ws.getD (n - 15) 0) + ws.getD (n - 16) 0)
  ws ++ [t]

def iterN (f : α → α) : Nat → α → α
  | 0, a => a
  | k + 1, a => iterN f k (f a)

def schedule (block : List Nat) : List Nat :=
  iterN schedStep 48 (bytesToWords block)

def compressStep (st : Nat × Nat × Nat × Nat × Nat × Nat × Nat × Nat) (kw : Nat × Nat) :
    Nat × Nat × Nat × Nat × Nat × Nat × Nat × Nat :=
  let (a, b, c, d, e, f, g, h) := st
  let (k, w) := kw
  let ch := (e &&& f) ^^^ ((4294967295 ^^^ e) &&& g)
  let maj := (a &&& b) ^^^ (a &&& c) ^^^ (b &&& c)
  let t1 := w32 (h + bsig1 e + ch + k + w)
  let t2 := w32 (bsig0 a + maj)
  (w32 (t1 + t2), a, b, c, w32 (d + t1), e, f, g)

def compress (H : Hash8) (block : List Nat) : Hash8 :=
  let ws := schedule block
  let (a, b, c, d, e, f, g, h) :=
    (shaK.zip ws).foldl compressStep (H.h0, H.h1, H.h2, H.h3, H.h4, H.h5, H.h6, H.h7)
  ⟨w32 (H.h0 + a), w32 (H.h1 + b), w32 (H.h2 + c), w32 (H.h3 + d),
   w32 (H.h4 + e), w32 (H.h5 + f), w32 (H.h6 + g), w32 (H.h7 + h)⟩

def sha256Bytes (msg : List Nat) : List Nat :=
  let Hf := (chunks64 (padMsg msg)).foldl compress shaInit
  beBytes 4 Hf.h0 ++ beBytes 4 Hf.h1 ++ beBytes 4 Hf.h2 ++ beBytes 4 Hf.h3 ++
  beBytes 4 Hf.h4 ++ beBytes 4 Hf.h5 ++ beBytes 4 Hf.h6 ++ beBytes 4 Hf.h7

/-- UTF-8 encoding of one character. -/
def utf8Char (c : Char) : List Nat :=
  let n := c.toNat
  if n < 128 then [n]
  else if n < 2048 then [192 + n / 64, 128 + n % 64]
  else if n < 65536 then [224 + n / 4096, 128 + (n / 64) % 64, 128 + n % 64]
  else [240 + n / 262144, 128 + (n / 4096) % 64, 128 + (n / 64) % 64, 128 + n % 64]

def utf8Bytes (s : String) : List Nat := (s.data.map utf8Char).flatten

/-- server.js 214: `crypto.createHash("sha256").update(v).digest("hex")`. -/
def sha256Hex (v : String) : String :=
  String.join ((sha256Bytes (utf8Bytes v)).map hexByte)

/-- SHA-256 sanity anchor: the FIPS 180-4 test vector for "abc". -/
theorem sha256Hex_abc_vector :
    sha256Hex "abc" = "ba7816bf8f01cfea414140de5dae2223b00361a396177a9cb410ff61f20015ad" := by
  decide

/-! ## UTC calendar arithmetic and timestamp parsing

ECMAScript `Date` uses epoch milliseconds with a proleptic Gregorian
calendar in UTC; `getUTCFullYear/Month/Date` and `toISOString` read the
civil date of the UTC day containing the instant.  The conversions are
the standard civil-from-days / days-from-civil algorithms. -/

def civilFromDays (z0 : Int) : Int × Int × Int :=
  let z := z0 + 719468
  let era := z.fdiv 146097
  let doe := z - era * 146097
  let yoe := (doe - doe.fdiv 1460 + doe.fdiv 36524 - doe.fdiv 146096).fdiv 365
  let y := yoe + era * 400
  let doy := doe - (365 * yoe + yoe.fdiv 4 - yoe.fdiv 100)
  let mp := (5 * doy + 2).fdiv 153
  let d := doy - (153 * mp + 2).fdiv 5 + 1
  let m := mp + (if mp < 10 then 3 else -9)
  (y + (if m ≤ 2 then 1 else 0), m, d)

def daysFromCivil (y0 m d : Int) : Int :=
  let y := y0 - (if m ≤ 2 then 1 else 0)
  let era := y.fdiv 400
  let yoe := y - era * 400
  let mp := (m + 9).emod 12
  let doy := (153 * mp + 2).fdiv 5 + d - 1
  let doe := yoe * 365 + yoe.fdiv 4 - yoe.fdiv 100 + doy
  era * 146097 + doe - 719468

/-- Epoch milliseconds of a UTC calendar instant. -/
def msOfUTC (y m d h mi s : Int) : Int :=
  daysFromCivil y m d * 86400000 + h * 3600000 + mi * 60000 + s * 1000

/-- UTC calendar date of an epoch-milliseconds instant
(`getUTCFullYear`, `getUTCMonth`+1, `getUTCDate`). -/
def utcYMD (ms : Int) : Int × Int × Int := civilFromDays (ms.fdiv 86400000)

/-- An ISO 8601 timestamp literal as received in a request body, split
into its syntactic components.  `offsetMin` is the explicit timezone
offset when one is written (`some 0` for a trailing `Z`); `dateOnly`
marks a date-only form (`YYYY-MM-DD`, time components zero). -/
structure Ts where
  year : Int
  month : Int
  day : Int
  hour : Int
  minute : Int
  second : Int
  offsetMin : Option Int
  dateOnly : Bool
  deriving DecidableEq

/-- `new Date(s)` / `Date.parse` on an ISO 8601 string (ECMA-262
21.4.3.2): an explicit offset is honoured; a date-only form is UTC; a
date-time form WITHOUT an offset is interpreted as host-local time,
hence depends on the host timezone offset `hostOffsetMin` (minutes east
of UTC). -/
def parseEpochMs (hostOffsetMin : Int) (t : Ts) : Int :=
  let base := msOfUTC t.year t.month t.day t.hour t.minute t.second
  match t.offsetMin with
  | some z => base - z * 60000
  | none => if t.dateOnly then base else base - hostOffsetMin * 60000

/-- `String(n).padStart(k, "0")`. -/
def padZeros (k : Nat) (s : String) : String :=
  if s.length < k then String.mk (List.replicate (k - s.length) '0') ++ s else s

def pad2 (n : Int) : String := padZeros 2 (toString n)

/-- Compact `YYYYMMDD` of the UTC day of an instant, exactly as
composed inside `makeBatchId` (year unpadded, month/day padded to 2). -/
def yyyymmddOf (ts : Int) : String :=
  let ymd := utcYMD ts
  toString ymd.1 ++ pad2 ymd.2.1 ++ pad2 ymd.2.2

/-- server.js 200-206: `makeBatchId(code, ts, collectorId)`. -/
def makeBatchId (code : String) (ts : Int) (collectorId : String) : String :=
  "B-" ++ code ++ "-" ++ yyyymmddOf ts ++ "-" ++ collectorId

/-- `isoZ(timestamp).slice(0,10)` (server.js 262): the `YYYY-MM-DD`
prefix of `toISOString()`, i.e. the UTC calendar date of the instant. -/
def isoDateUtc (ts : Int) : String :=
  let ymd := utcYMD ts
  padZeros 4 (toString ymd.1) ++ "-" ++ pad2 ymd.2.1 ++ "-" ++ pad2 ymd.2.2

/-! ## Species records and the species-code fallback (server.js 195-199) -/

structure SpeciesR where
  scientificName : String
  speciesCode : String
  deriving DecidableEq

/-- `String.prototype.toUpperCase()` on ASCII input, acting on the
character list (the species names in play are ASCII). -/
def asciiUpper (s : String) : String := String.mk (s.data.map Char.toUpper)

/-- `s.split(" ")[0]`: the characters before the first space (for the
empty string, `[""][0] = ""`). -/
def firstToken (s : String) : String :=
  String.mk (s.data.takeWhile (fun c => !(c == ' ')))

/-- The fallback code derivation inside `speciesCodeFor`:
`(scientificName.split(" ")[0] || "SPEC").slice(0,5).toUpperCase()`.
(`"".split(" ")` is `[""]`, whose head is falsy.) -/
def fallbackCode (scientificName : String) : String :=
  let tok := firstToken scientificName
  asciiUpper (String.mk ((if tok = "" then "SPEC" else tok).data.take 5))

/-- server.js 195-199: `speciesCodeFor` — the stored code of the species
when seeded (and truthy), otherwise the deterministic fallback.  The
`Species.findOne` store read is modelled as first match in the list. -/
def speciesCodeFor (species : List SpeciesR) (scientificName : String) : String :=
  match species.find? (fun s => s.scientificName == scientificName) with
  | some s => if s.speciesCode == "" then fallbackCode scientificName else s.speciesCode
  | none => fallbackCode scientificName

/-- Batch-id resolution as performed by `POST /collection` (server.js
260-261): `speciesCodeFor` followed by `makeBatchId`. -/
def resolveBatchId (species : List SpeciesR) (scientificName collectorId : String) (ts : Int) : String :=
  makeBatchId (speciesCodeFor species scientificName) ts collectorId

/-! ## Store primitives

MongoDB collections are modelled as lists in insertion order.  The
update primitives follow the documented semantics of the exact call
shapes the source uses: `updateOne` applies `$set` to the first
matching document; `updateMany` applies `$set` to every matching
document; `updateOne` with only `$setOnInsert` and `upsert: true`
modifies nothing on a match and inserts the document otherwise. -/

/-- JavaScript string truthiness (`""` is falsy). -/
def truthy (s : String) : Bool := !(s == "")

/-- Truthiness of a possibly-absent string field. -/
def truthyOpt : Option String → Bool
  | none => false
  | some s => truthy s

/-- `v || dflt` for a possibly-absent string. -/
def jsOr (v : Option String) (dflt : String) : String :=
  match v with
  | some s => if s == "" then dflt else s
  | none => dflt

/-- `v || absentined` for a possibly-absent string. -/
def jsOrUndef (v : Option String) : Option String :=
  match v with
  | some s => if s == "" then none else some s
  | none => none

/-- `v || {}` for a possibly-absent JSON payload. -/
def jsOrEmptyObj (v : Option JsonVal) : JsonVal :=
  match v with
  | some j => j
  | none => .obj []

/-- Apply `f` to the first element satisfying `p`, keep the rest. -/
def updateFirst (p : α → Bool) (f : α → α) : List α → List α
  | [] => []
  | x :: xs => if p x then f x :: xs else x :: updateFirst p f xs

/-- `Model.updateOne(filter, { $set: ... })` — `$set` on the first
match; a no-op when nothing matches. -/
def mongoUpdateOne (l : List α) (p : α → Bool) (f : α → α) : List α :=
  updateFirst p f l

/-- `matchedCount > 0` of an `updateOne`. -/
def mongoMatched (l : List α) (p : α → Bool) : Bool := l.any p

/-- `Model.updateMany(filter, { $set: ... })`. -/
def mongoUpdateMany (l : List α) (p : α → Bool) (f : α → α) : List α :=
  l.map (fun x => if p x then f x else x)

/-- `Model.updateOne(filter, { $setOnInsert: doc }, { upsert: true })`:
on a match the update document contains no effective operator, so the
matched document is left as-is; otherwise `doc` is inserted. -/
def mongoUpsertSetOnInsert (l : List α) (p : α → Bool) (doc : α) : List α :=
  if l.any p then updateFirst p (fun x => x) l else l ++ [doc]

/-! ## Record types (mongoose schemas, server.js 115-192) -/

structure Geo where
  lat : ℚ
  lng : ℚ
  deriving DecidableEq

structure CEvent where
  id : String
  clientEventId : Option String
  scientificName : String
  collectorId : String
  geo : Geo
  timestampUtc : Int
  ai : Option ℚ
  status : String
  violations : List String
  batchId : String
  hash : Option String
  deriving DecidableEq

/-- Batch record.  The schema itself has no `chainStatus` path; the
chain-status endpoint nevertheless `$set`s one, so the store model
carries it as an optional field (per the spec the store is a generic
keyed collection). -/
structure BatchR where
  id : String
  scientificName : String
  collectorId : String
  dateUtc : String
  statusPhase : String
  qualityGate : String
  qrCodeUrl : Option String
  chainStatus : Option String
  deriving DecidableEq

structure PStepR where
  id : String
  batchId : String
  stepType : String
  status : String
  startedAt : Option Int
  endedAt : Option Int
  params : JsonVal
  postMetrics : JsonVal
  notes : String
  hash : String

structure LabR where
  id : String
  batchId : String
  moisturePct : ℚ
  pesticidePass : Bool
  pdfUrl : Option String
  gate : String
  status : String
  hash : String
  deriving DecidableEq

structure Store where
  species : List SpeciesR
  events : List CEvent
  batches : List BatchR
  steps : List PStepR
  labs : List LabR

/-! ## QR code link (server.js 263-270) -/

/-- Upper-case hex digit. -/
def hexDigitCharU (n : Nat) : Char :=
  if n < 10 then Char.ofNat (48 + n) else Char.ofNat (55 + n)

/-- `encodeURIComponent`: unreserved characters `A-Z a-z 0-9 - _ . ! ~ * ( )`
and the apostrophe pass through; everything else is percent-encoded
per UTF-8 byte with upper-case hex. -/
def isUriUnreserved (c : Char) : Bool :=
  (65 ≤ c.toNat && c.toNat ≤ 90) || (97 ≤ c.toNat && c.toNat ≤ 122) ||
  (48 ≤ c.toNat && c.toNat ≤ 57) ||
  c == '-' || c == '_' || c == '.' || c == '!' || c == '~' || c == '*' ||
  c == Char.ofNat 39 || c == '(' || c == ')'

def encodeUriComponent (s : String) : String :=
  String.join (s.data.map (fun c =>
    if isUriUnreserved c then String.singleton c
    else String.join ((utf8Char c).map (fun b => "%" ++ String.mk [hexDigitCharU (b / 16), hexDigitCharU (b % 16)]))))

/-- `JSON.stringify` of the batch-info object literal of server.js
263-269, keys in insertion order. -/
def batchInfoRaw (batchId scientificName collectorId dateUtc : String) : String :=
  "\x7b\"id\":" ++ jsonQuote batchId ++
  ",\"scientificName\":" ++ jsonQuote scientificName ++
  ",\"collectorId\":" ++ jsonQuote collectorId ++
  ",\"dateUtc\":" ++ jsonQuote dateUtc ++
  ",\"statusPhase\":\"CREATED\"\x7d"

def qrCodeUrlFor (batchId scientificName collectorId dateUtc : String) : String :=
  "https://api.qrserver.com/v1/create-qr-code/?size=200x200&data=" ++
  encodeUriComponent (batchInfoRaw batchId scientificName collectorId dateUtc)

/-! ## `POST /collection` (server.js 227-316) -/

structure CollectionReq where
  scientificName : String
  collectorId : String
  geo : Geo
  timestamp : Ts
  clientEventId : Option String
  ai_verified_confidence : Option ℚ
  deriving DecidableEq

/-- The response fields of `POST /collection` the claims depend on.
`wasCreated` distinguishes the 201-created path from an idempotent
replay (which replies 200 with the previously stored record). -/
structure CollectionResp where
  eventId : String
  batchId : String
  wasCreated : Bool
  deriving DecidableEq

/-- server.js 271-276: ensure the day-batch exists
(`Batch.updateOne({id}, {$setOnInsert: {...}}, {upsert: true})`).
`qualityGate: "PENDING"` is the schema default applied on insert. -/
def ensureBatch (batches : List BatchR) (doc : BatchR) : List BatchR :=
  mongoUpsertSetOnInsert batches (fun b => b.id == doc.id) doc

/-- The batch document `POST /collection` resolves and upserts
(server.js 259-275): id from `speciesCodeFor`+`makeBatchId`, phase
CREATED, gate PENDING (schema default on insert), QR link. -/
def resolvedBatchOf (hostOffsetMin : Int) (species : List SpeciesR) (r : CollectionReq) : BatchR :=
  let code := speciesCodeFor species r.scientificName
  let ms := parseEpochMs hostOffsetMin r.timestamp
  let batchId := makeBatchId code ms r.collectorId
  let dateUtc := isoDateUtc ms
  { id := batchId, scientificName := r.scientificName, collectorId := r.collectorId,
    dateUtc := dateUtc, statusPhase := "CREATED", qualityGate := "PENDING",
    qrCodeUrl := some (qrCodeUrlFor batchId r.scientificName r.collectorId dateUtc),
    chainStatus := none }

/-- The collection-event document created at server.js 279-292
(`clientEventId: clientEventId || null`, `hash: null`). -/
def newCollectionEvent (hostOffsetMin : Int) (species : List SpeciesR) (r : CollectionReq)
    (fresh : String) : CEvent :=
  { id := "CE-" ++ fresh,
    clientEventId := if truthyOpt r.clientEventId then r.clientEventId else none,
    scientificName := r.scientificName, collectorId := r.collectorId,
    geo := r.geo, timestampUtc := parseEpochMs hostOffsetMin r.timestamp,
    ai := r.ai_verified_confidence, status := "ACCEPTED", violations := [],
    batchId := (resolvedBatchOf hostOffsetMin species r).id, hash := none }

/-- server.js 227-316: create a collection event, with idempotency by
`clientEventId` and day-batch auto-creation.  `fresh` stands for the
8 hex chars of `crypto.randomBytes(4)`. -/
def recordCollection (hostOffsetMin : Int) (st : Store) (r : CollectionReq) (fresh : String) :
    CollectionResp × Store :=
  let hit := if truthyOpt r.clientEventId then
               st.events.find? (fun e => e.clientEventId == r.clientEventId)
             else none
  match hit with
  | some ex => ({ eventId := ex.id, batchId := ex.batchId, wasCreated := false }, st)
  | none =>
    let newBatch := resolvedBatchOf hostOffsetMin st.species r
    let ev := newCollectionEvent hostOffsetMin st.species r fresh
    ({ eventId := ev.id, batchId := newBatch.id, wasCreated := true },
     { st with batches := ensureBatch st.batches newBatch, events := st.events ++ [ev] })

/-! ## `POST /processing` (server.js 355-377) -/

structure ProcReq where
  batch_id : String
  step_type : String
  status : Option String
  started_at : Option Ts
  ended_at : Option Ts
  params : Option JsonVal
  post_step_metrics : Option JsonVal
  notes : Option String

structure ProcResp where
  stepId : String
  stepType : String
  batchId : String
  batchPhase : Option String

/-- The member names that every plain object literal inherits from
`Object.prototype` in Node: reading any of them on the literal yields a
truthy, non-string JavaScript value (a built-in function, or the
`Object.prototype` object itself for `__proto__`) rather than
`undefined`. -/
def objectProtoKeys : List String :=
  ["constructor", "hasOwnProperty", "isPrototypeOf", "propertyIsEnumerable",
   "toLocaleString", "toString", "valueOf", "__proto__",
   "__defineGetter__", "__defineSetter__", "__lookupGetter__", "__lookupSetter__"]

/-- Result of the JavaScript property lookup
`{ RECEIPT: ..., DRYING: ..., GRINDING: ... }[stepType]`: an own key
gives its phase string; an `Object.prototype` member name gives the
inherited (truthy) value; anything else is `undefined` (falsy). -/
inductive PhaseLookup where
  | phase (ph : String)
  | protoMember (name : String)
  | absent
  deriving DecidableEq

/-- What mongoose's string cast (`SchemaString.cast`) makes of the
inherited value when the handler `$set`s it as `statusPhase`: the
eleven function-valued members stringify via
`Function.prototype.toString` (`constructor` is the `Object` function);
`__proto__` reads as the `Object.prototype` object, whose `toString` IS
`Object.prototype.toString`, so the cast throws a CastError and the
update writes nothing. -/
def protoMemberCast (name : String) : Option String :=
  if name = "__proto__" then none
  else if name = "constructor" then some "function Object() \x7b [native code] \x7d"
  else some ("function " ++ name ++ "() \x7b [native code] \x7d")

/-- server.js 373: `{ RECEIPT: "RECEIPT_DONE", DRYING: "DRYING_DONE",
GRINDING: "GRINDING_DONE" }[stepType]` — a plain-object lookup, so keys
outside the table that are `Object.prototype` member names still
produce a truthy inherited value; only the rest give `undefined`. -/
def phaseMap (stepType : String) : PhaseLookup :=
  if stepType = "RECEIPT" then .phase "RECEIPT_DONE"
  else if stepType = "DRYING" then .phase "DRYING_DONE"
  else if stepType = "GRINDING" then .phase "GRINDING_DONE"
  else if objectProtoKeys.contains stepType then .protoMember stepType
  else .absent

/-- The processing-step document created at server.js 360-371. -/
def procDocOf (hostOffsetMin : Int) (p : ProcReq) (fresh : String) : PStepR :=
  let id := "PS-" ++ fresh
  { id := id, batchId := p.batch_id, stepType := p.step_type,
    status := jsOr p.status "COMPLETED",
    startedAt := p.started_at.map (parseEpochMs hostOffsetMin),
    endedAt := p.ended_at.map (parseEpochMs hostOffsetMin),
    params := jsOrEmptyObj p.params,
    postMetrics := jsOrEmptyObj p.post_step_metrics,
    notes := jsOr p.notes "",
    hash := sha256Hex (id ++ ":" ++ p.batch_id) }

/-- server.js 355-377: create a processing step and naïvely bump the
batch phase from the `phaseMap` lookup.  `if (nextPhase)` is truthy
both for the three mapped phases and for the inherited
`Object.prototype` members, so the `$set` also fires for the latter,
storing mongoose's string cast of the inherited value; for `__proto__`
the cast fails, so that update writes nothing — the step record was
already created, and the real request then errors without a response
(an unhandled rejection at the HTTP layer; the store-level effect is
what is modelled).  In the 201 response, `status_phase: nextPhase ||
undefined` serializes to the phase string for mapped types and is
dropped by `JSON.stringify` otherwise (function values and
`undefined`), hence `none` in both non-phase cases. -/
def recordProcessingStep (hostOffsetMin : Int) (st : Store) (p : ProcReq) (fresh : String) :
    Except String (ProcResp × Store) :=
  if truthy p.batch_id = false || truthy p.step_type = false then
    .error "batch_id and step_type required"
  else
    let doc := procDocOf hostOffsetMin p fresh
    let nextPhase := phaseMap p.step_type
    let batches :=
      match nextPhase with
      | .phase ph => mongoUpdateOne st.batches (fun b => b.id == p.batch_id)
                       (fun b => { b with statusPhase := ph })
      | .protoMember name =>
        match protoMemberCast name with
        | some cast => mongoUpdateOne st.batches (fun b => b.id == p.batch_id)
                         (fun b => { b with statusPhase := cast })
        | none => st.batches
      | .absent => st.batches
    .ok ({ stepId := doc.id, stepType := p.step_type, batchId := p.batch_id,
           batchPhase := match nextPhase with | .phase ph => some ph | _ => none },
         { st with steps := st.steps ++ [doc], batches := batches })

/-! ## `POST /labtest` (server.js 448-481) -/

structure LabReq where
  batch_id : String
  moisture_pct : ℚ
  pesticide_pass : Bool
  pdf_url : Option String
  deriving DecidableEq

structure LabResp where
  labId : String
  batchId : String
  gate : String

/-- server.js 456: `(moisture_pct <= MOISTURE_THRESHOLD_PCT &&
pesticide_pass) ? "PASS" : "FAIL"`. -/
def evaluateGate (moisturePct : ℚ) (pesticidePass : Bool) (thresholdPct : ℚ) : String :=
  if (decide (moisturePct ≤ thresholdPct) && pesticidePass) = true then "PASS" else "FAIL"

/-- The lab-test document created at server.js 459-467 (`status` is the
schema default READY). -/
def labDocOf (threshold : ℚ) (p : LabReq) (fresh : String) : LabR :=
  let id := "LT-" ++ fresh
  { id := id, batchId := p.batch_id, moisturePct := p.moisture_pct,
    pesticidePass := p.pesticide_pass, pdfUrl := jsOrUndef p.pdf_url,
    gate := evaluateGate p.moisture_pct p.pesticide_pass threshold,
    status := "READY", hash := sha256Hex (id ++ ":" ++ p.batch_id) }

/-- server.js 451-481: create a lab test with the computed gate and
overwrite the batch's quality gate.  `threshold` is
`MOISTURE_THRESHOLD_PCT` (env or 12). -/
def recordLabTest (threshold : ℚ) (st : Store) (p : LabReq) (fresh : String) :
    Except String (LabResp × Store) :=
  if truthy p.batch_id = false then
    .error "batch_id, moisture_pct(number), pesticide_pass(boolean) required"
  else
    let doc := labDocOf threshold p fresh
    let batches := mongoUpdateOne st.batches (fun b => b.id == p.batch_id)
                     (fun b => { b with qualityGate := doc.gate })
    .ok ({ labId := doc.id, batchId := p.batch_id, gate := doc.gate },
         { st with labs := st.labs ++ [doc], batches := batches })

/-! ## `PATCH /batches/:id/chain-status` (server.js 408-425) -/

structure ChainResp where
  id : String
  chainStatus : String
  hash : Option String
  deriving DecidableEq

def toUpperStr (s : String) : String := asciiUpper s

def allowedChain (s : String) : Bool :=
  s == "READY" || s == "IN_PROGRESS" || s == "COMPLETE"

/-- server.js 408-425: validate and upper-case the status, `$set` it on
the batch (404 when no batch matches), and, when a hash is supplied,
`$set` that hash on every collection event of the batch. -/
def setChainStatus (st : Store) (id : String) (status : Option String) (hash : Option String) :
    Except String (ChainResp × Store) :=
  if truthyOpt status = false || allowedChain (toUpperStr (status.getD "")) = false then
    .error "Invalid status. Use READY | IN_PROGRESS | COMPLETE"
  else
    let next := toUpperStr (status.getD "")
    let batches := mongoUpdateOne st.batches (fun b => b.id == id)
                     (fun b => { b with chainStatus := some next })
    if mongoMatched st.batches (fun b => b.id == id) = false then .error "NOT_FOUND"
    else
      let events := if truthyOpt hash then
                      mongoUpdateMany st.events (fun e => e.batchId == id)
                        (fun e => { e with hash := hash })
                    else st.events
      .ok ({ id := id, chainStatus := next, hash := if truthyOpt hash then hash else none },
           { st with batches := batches, events := events })

/-! ## Lemmas: the key order is a total preorder, antisymmetric on keys -/

theorem charListLe_total : ∀ as bs : List Char, charListLe as bs = true ∨ charListLe bs as = true
  | [], _ => Or.inl rfl
  | _ :: _, [] => Or.inr rfl
  | a :: as, b :: bs => by
    rcases Nat.lt_trichotomy a.toNat b.toNat with h | h | h
    · left; simp [charListLe, h]
    · have h2 : ¬ a.toNat < b.toNat := by omega
      have h3 : ¬ b.toNat < a.toNat := by omega
      rcases charListLe_total as bs with ih | ih
      · left; simp [charListLe, h2, h3, ih]
      · right; simp [charListLe, h2, h3, ih]
    · right; simp [charListLe, h]

theorem charListLe_trans : ∀ as bs cs : List Char,
    charListLe as bs = true → charListLe bs cs = true → charListLe as cs = true
  | [], _, _, _, _ => rfl
  | a :: as, [], _, hab, _ => by simp [charListLe] at hab
  | _ :: _, _ :: _, [], _, hbc => by simp [charListLe] at hbc
  | a :: as, b :: bs, c :: cs, hab, hbc => by
    simp only [charListLe] at hab hbc ⊢
    by_cases h1 : a.toNat < b.toNat
    · by_cases h2 : b.toNat < c.toNat
      · simp [show a.toNat < c.toNat by omega]
      · by_cases h3 : c.toNat < b.toNat
        · simp [h2, h3] at hbc
        · simp [show a.toNat < c.toNat by omega]
    · by_cases h2 : b.toNat < a.toNat
      · simp [h1, h2] at hab
      · simp [h1, h2] at hab
        by_cases h3 : b.toNat < c.toNat
        · simp [show a.toNat < c.toNat by omega]
        · by_cases h4 : c.toNat < b.toNat
          · simp [h3, h4] at hbc
          · simp [h3, h4] at hbc
            have hac1 : ¬ a.toNat < c.toNat := by omega
            have hac2 : ¬ c.toNat < a.toNat := by omega
            simp [hac1, hac2, charListLe_trans as bs cs hab hbc]

theorem charListLe_antisymm : ∀ as bs : List Char,
    charListLe as bs = true → charListLe bs as = true → as = bs
  | [], [], _, _ => rfl
  | [], _ :: _, _, hba => by simp [charListLe] at hba
  | _ :: _, [], hab, _ => by simp [charListLe] at hab
  | a :: as, b :: bs, hab, hba => by
    simp only [charListLe] at hab hba
    by_cases h1 : a.toNat < b.toNat
    · have : ¬ b.toNat < a.toNat := by omega
      simp [h1, this] at hba
    · by_cases h2 : b.toNat < a.toNat
      · simp [h1, h2] at hab
      · simp [h1, h2] at hab hba
        have hc : a = b := by
          apply Char.ext
          apply UInt32.ext
          have : a.toNat = b.toNat := by omega
          exact this
        rw [hc, charListLe_antisymm as bs hab hba]

theorem strLe_antisymm {a b : String} (h1 : strLe a b = true) (h2 : strLe b a = true) : a = b :=
  String.ext (charListLe_antisymm a.data b.data h1 h2)

instance : IsTotal (String × String) keyRel :=
  ⟨fun a b => charListLe_total a.1.data b.1.data⟩

instance : IsTrans (String × String) keyRel :=
  ⟨fun a b c => charListLe_trans a.1.data b.1.data c.1.data⟩

/-- Strict version of the key order: antisymmetric on lists with
distinct keys. -/
def keyRelStrict (a b : String × String) : Prop := keyRel a b ∧ a.1 ≠ b.1

instance : IsAntisymm (String × String) keyRelStrict :=
  ⟨fun a b h1 h2 => (h1.2 (strLe_antisymm h1.1 h2.1)).elim⟩

/-- Two permutations of the same fields with pairwise-distinct keys
sort to the same list. -/
theorem sortSer_perm_eq {l₁ l₂ : List (String × String)} (hp : l₁.Perm l₂)
    (hnd : (l₁.map Prod.fst).Nodup) : sortSer l₁ = sortSer l₂ := by
  have hs1 : List.Sorted keyRel (sortSer l₁) := List.sorted_insertionSort keyRel l₁
  have hs2 : List.Sorted keyRel (sortSer l₂) := List.sorted_insertionSort keyRel l₂
  have hperm : (sortSer l₁).Perm (sortSer l₂) :=
    (List.perm_insertionSort keyRel l₁).trans (hp.trans (List.perm_insertionSort keyRel l₂).symm)
  have hnd1 : ((sortSer l₁).map Prod.fst).Nodup :=
    (((List.perm_insertionSort keyRel l₁).symm).map Prod.fst).nodup hnd
  have hnd2 : ((sortSer l₂).map Prod.fst).Nodup := (hperm.map Prod.fst).nodup hnd1
  have hne1 : (sortSer l₁).Pairwise (fun a b => a.1 ≠ b.1) := List.pairwise_map.mp hnd1
  have hne2 : (sortSer l₂).Pairwise (fun a b => a.1 ≠ b.1) := List.pairwise_map.mp hnd2
  have hstrict1 : List.Sorted keyRelStrict (sortSer l₁) := hs1.and hne1
  have hstrict2 : List.Sorted keyRelStrict (sortSer l₂) := hs2.and hne2
  exact List.eq_of_perm_of_sorted hperm hstrict1 hstrict2

theorem serPairs_eq_map (l : List (String × JsonVal)) :
    serPairs l = l.map (fun kv => (kv.1, stableStringify kv.2)) := by
  induction l with
  | nil => rfl
  | cons kv xs ih => cases kv; simp [serPairs, ih]

theorem serList_eq_map (l : List JsonVal) : serList l = l.map stableStringify := by
  induction l with
  | nil => rfl
  | cons x xs ih => simp [serList, ih]

theorem serPairs_keys (l : List (String × JsonVal)) :
    (serPairs l).map Prod.fst = l.map Prod.fst := by
  rw [serPairs_eq_map, List.map_map]
  rfl

/-! ## Claim theorems -/

/-- C2: For every pair of mappings with identical key/value content but
different key insertion order, `stableStringify` produces identical
strings (mapping keys are serialized sorted by key); for every
sequence, element order is preserved in the canonical form, so
reordering (distinct) elements changes the canonical string. -/
theorem C2_canonicalize_order_independence :
    (∀ l₁ l₂ : List (String × JsonVal), l₁.Perm l₂ → (l₁.map Prod.fst).Nodup →
        stableStringify (JsonVal.obj l₁) = stableStringify (JsonVal.obj l₂))
  ∧ (∀ xs : List JsonVal,
        stableStringify (JsonVal.arr xs) = "[" ++ joinComma (xs.map stableStringify) ++ "]")
  ∧ stableStringify (JsonVal.arr [JsonVal.num 1, JsonVal.num 2]) ≠
      stableStringify (JsonVal.arr [JsonVal.num 2, JsonVal.num 1]) := by
  refine ⟨?_, ?_, ?_⟩
  · intro l₁ l₂ hp hnd
    have hss : sortSer (serPairs l₁) = sortSer (serPairs l₂) := by
      apply sortSer_perm_eq
      · rw [serPairs_eq_map, serPairs_eq_map]
        exact hp.map _
      · rw [serPairs_keys]
        exact hnd
    simp [stableStringify, hss]
  · intro xs
    simp [stableStringify, serList_eq_map]
  · decide

/-- C2 witness: a concrete two-key mapping given in both insertion
orders canonicalizes identically. -/
theorem C2_witness :
    stableStringify (JsonVal.obj [("b", JsonVal.num 1), ("a", JsonVal.num 2)]) =
      stableStringify (JsonVal.obj [("a", JsonVal.num 2), ("b", JsonVal.num 1)]) :=
  C2_canonicalize_order_independence.1 _ _
    (List.Perm.swap ("a", JsonVal.num 2) ("b", JsonVal.num 1) [])
    (by decide)

/-- C1: For every species store, species name, collector id and pair of
instants on the same UTC calendar day, batch-id resolution
(`speciesCodeFor` followed by `makeBatchId`) yields the same batch id,
of the form `B-<code>-<YYYYMMDD>-<collectorId>`; for the unseeded
species "Withania somnifera", collector "farmer-123" and timestamp
2025-09-16T09:00:00Z it yields "B-WITHA-20250916-farmer-123", and a
second event the same day resolves to the same id. -/
theorem C1_same_day_same_batch_id :
    (∀ (species : List SpeciesR) (name cid : String) (t1 t2 : Int),
        utcYMD t1 = utcYMD t2 →
        resolveBatchId species name cid t1 = resolveBatchId species name cid t2)
  ∧ (∀ (species : List SpeciesR) (name cid : String) (t : Int),
        resolveBatchId species name cid t =
          "B-" ++ speciesCodeFor species name ++ "-" ++ yyyymmddOf t ++ "-" ++ cid)
  ∧ resolveBatchId [] "Withania somnifera" "farmer-123" (msOfUTC 2025 9 16 9 0 0) =
      "B-WITHA-20250916-farmer-123"
  ∧ resolveBatchId [] "Withania somnifera" "farmer-123" (msOfUTC 2025 9 16 14 30 0) =
      "B-WITHA-20250916-farmer-123" := by
  refine ⟨?_, ?_, by decide, by decide⟩
  · intro species name cid t1 t2 h
    simp only [resolveBatchId, makeBatchId, yyyymmddOf]
    rw [h]
  · intro species name cid t
    rfl

/-- C1 witness: two distinct instants of 2025-09-16 resolve to the same
batch id for a fresh species/collector pair. -/
theorem C1_witness :
    utcYMD (msOfUTC 2025 9 16 0 30 0) = utcYMD (msOfUTC 2025 9 16 23 59 59) ∧
    resolveBatchId [] "Ocimum tenuiflorum" "c-77" (msOfUTC 2025 9 16 0 30 0) =
      resolveBatchId [] "Ocimum tenuiflorum" "c-77" (msOfUTC 2025 9 16 23 59 59) :=
  ⟨by decide, C1_same_day_same_batch_id.1 [] "Ocimum tenuiflorum" "c-77" _ _ (by decide)⟩

/-- Applying an empty update document leaves every record unchanged. -/
theorem updateFirst_id (p : α → Bool) : ∀ l : List α, updateFirst p (fun x => x) l = l
  | [] => rfl
  | x :: xs => by
    simp only [updateFirst]
    split <;> simp [updateFirst_id p xs]

/-- C4: the batch upsert performed during `POST /collection`
(`$setOnInsert` + `upsert`) leaves the whole batch store — in
particular every field of the already-existing batch — unchanged when
a batch with the resolved id already exists. -/
theorem C4_ensure_batch_no_mutation :
    ∀ (l : List BatchR) (doc : BatchR),
      l.any (fun b => b.id == doc.id) = true →
      ensureBatch l doc = l := by
  intro l doc h
  simp only [ensureBatch, mongoUpsertSetOnInsert, h, if_true]
  exact updateFirst_id _ l

/-- C4 witness: re-upserting an existing batch id with a different
candidate document changes nothing. -/
theorem C4_witness :
    ensureBatch
      [{ id := "B-WITHA-20250916-farmer-123", scientificName := "Withania somnifera",
         collectorId := "farmer-123", dateUtc := "2025-09-16", statusPhase := "DRYING_DONE",
         qualityGate := "PASS", qrCodeUrl := none, chainStatus := none }]
      { id := "B-WITHA-20250916-farmer-123", scientificName := "Withania somnifera",
        collectorId := "farmer-123", dateUtc := "2025-09-16", statusPhase := "CREATED",
        qualityGate := "PENDING", qrCodeUrl := none, chainStatus := none } =
      [{ id := "B-WITHA-20250916-farmer-123", scientificName := "Withania somnifera",
         collectorId := "farmer-123", dateUtc := "2025-09-16", statusPhase := "DRYING_DONE",
         qualityGate := "PASS", qrCodeUrl := none, chainStatus := none }] :=
  C4_ensure_batch_no_mutation _ _ (by decide)

/-- 2025-09-16T01:00:00 — a date-time literal with no timezone offset. -/
def tsNoOffset : Ts := ⟨2025, 9, 16, 1, 0, 0, none, false⟩

/-- 2025-09-16T01:00:00Z — the same wall-clock instant with an explicit
UTC offset. -/
def tsWithZ : Ts := ⟨2025, 9, 16, 1, 0, 0, some 0, false⟩

/-- C5 (divergence): `new Date` treats a date-time string WITHOUT an
offset as host-local time (ECMA-262), not as UTC.  On a host at
UTC+05:30 (offset 330), the offset-less literal 2025-09-16T01:00:00
resolves to batch-id date 20250915 and batch date 2025-09-15, while
the explicit-Z form of the same wall clock resolves to 20250916 /
2025-09-16 — so batch-id resolution does NOT treat offset-less
timestamps as already-UTC.  They only coincide when the host offset is
zero, as the first conjunct shows for this wall clock. -/
theorem C5_offsetless_parse_divergence :
    parseEpochMs 0 tsNoOffset = parseEpochMs 0 tsWithZ
  ∧ yyyymmddOf (parseEpochMs 330 tsNoOffset) = "20250915"
  ∧ yyyymmddOf (parseEpochMs 330 tsWithZ) = "20250916"
  ∧ isoDateUtc (parseEpochMs 330 tsNoOffset) = "2025-09-15"
  ∧ isoDateUtc (parseEpochMs 330 tsWithZ) = "2025-09-16"
  ∧ resolveBatchId [] "Withania somnifera" "farmer-123" (parseEpochMs 330 tsNoOffset) ≠
      resolveBatchId [] "Withania somnifera" "farmer-123" (parseEpochMs 330 tsWithZ) := by
  refine ⟨by decide, by decide, by decide, by decide, by decide, by decide⟩

/-- C7: quality-gate evaluation returns PASS iff
`moisturePct ≤ thresholdPct` and `pesticidePass`, FAIL otherwise; it is
total (always PASS or FAIL), and `evaluateGate 10.5 true 12 = PASS`,
`evaluateGate 15 true 12 = FAIL`, `evaluateGate 5 false 12 = FAIL`. -/
theorem C7_evaluate_gate :
    (∀ (m t : ℚ) (pp : Bool),
        (evaluateGate m pp t = "PASS" ↔ m ≤ t ∧ pp = true)
      ∧ (evaluateGate m pp t = "PASS" ∨ evaluateGate m pp t = "FAIL"))
  ∧ evaluateGate (10.5 : ℚ) true 12 = "PASS"
  ∧ evaluateGate 15 true 12 = "FAIL"
  ∧ evaluateGate 5 false 12 = "FAIL" := by
  refine ⟨?_, ?_, ?_, ?_⟩
  · intro m t pp
    constructor
    · by_cases hm : m ≤ t <;> cases pp <;> simp [evaluateGate, hm]
    · by_cases hm : m ≤ t <;> cases pp <;> simp [evaluateGate, hm]
  · have h : (10.5 : ℚ) ≤ 12 := by norm_num
    simp [evaluateGate, h]
  · have h : ¬ (15 : ℚ) ≤ 12 := by norm_num
    simp [evaluateGate, h]
  · simp [evaluateGate]


theorem beBytes_length : ∀ k n : Nat, (beBytes k n).length = k
  | 0, _ => rfl
  | k + 1, n => by simp [beBytes, beBytes_length k (n / 256)]

theorem sha256Bytes_length (m : List Nat) : (sha256Bytes m).length = 32 := by
  simp [sha256Bytes, List.length_append, beBytes_length]

theorem length_foldl_append : ∀ (l : List String) (acc : String),
    (l.foldl (fun r s => r ++ s) acc).length = acc.length + (l.map String.length).sum
  | [], acc => by simp
  | x :: xs, acc => by
    simp [List.foldl_cons, length_foldl_append xs (acc ++ x), String.length_append]
    omega

theorem sum_hexByte_lengths : ∀ l : List Nat,
    ((l.map hexByte).map String.length).sum = 2 * l.length
  | [] => rfl
  | b :: bs => by
    have ih := sum_hexByte_lengths bs
    have h : (hexByte b).length = 2 := rfl
    simp only [List.map_cons, List.sum_cons, List.length_cons]
    omega

theorem sha256Hex_length (s : String) : (sha256Hex s).length = 64 := by
  have h1 : sha256Hex s = (String.join ((sha256Bytes (utf8Bytes s)).map hexByte)) := rfl
  rw [h1, String.join, length_foldl_append, sum_hexByte_lengths, sha256Bytes_length]
  decide

/-- C9: the hash stored on a created processing-step / lab-test record
is the 256-bit (64 lowercase hex chars) SHA-256 digest of the
generated entity id joined with the owning batch id
(`sha256Hex(id + ":" + batch_id)`), which depends on nothing but those
two ids — not a content hash of the record's fields. -/
theorem C9_auto_hash_id_concat :
    (∀ (host : Int) (p : ProcReq) (fresh : String),
        (procDocOf host p fresh).hash = sha256Hex ("PS-" ++ fresh ++ ":" ++ p.batch_id))
  ∧ (∀ (threshold : ℚ) (p : LabReq) (fresh : String),
        (labDocOf threshold p fresh).hash = sha256Hex ("LT-" ++ fresh ++ ":" ++ p.batch_id))
  ∧ (∀ (host : Int) (st : Store) (p : ProcReq) (fresh : String),
        truthy p.batch_id = true → truthy p.step_type = true →
        ∃ resp st', recordProcessingStep host st p fresh = .ok (resp, st')
          ∧ st'.steps = st.steps ++ [procDocOf host p fresh])
  ∧ (∀ (threshold : ℚ) (st : Store) (p : LabReq) (fresh : String),
        truthy p.batch_id = true →
        ∃ resp st', recordLabTest threshold st p fresh = .ok (resp, st')
          ∧ st'.labs = st.labs ++ [labDocOf threshold p fresh])
  ∧ (∀ s : String, (sha256Hex s).length = 64) := by
  refine ⟨?_, ?_, ?_, ?_, sha256Hex_length⟩
  · intro host p fresh
    simp only [procDocOf]
  · intro threshold p fresh
    simp only [labDocOf]
  · intro host st p fresh hb hs
    simp only [recordProcessingStep, hb, hs]
    exact ⟨_, _, rfl, rfl⟩
  · intro threshold st p fresh hb
    simp only [recordLabTest, hb]
    exact ⟨_, _, rfl, rfl⟩

/-- C9 witness: a concrete lab test stores exactly the id-concatenation
hash record. -/
theorem C9_witness :
    truthy "B-1" = true ∧
    (∃ resp st', recordLabTest 12 ⟨[], [], [], [], []⟩ ⟨"B-1", 9, true, none⟩ "1a2b3c4d" =
        .ok (resp, st') ∧
        st'.labs = ([] : List LabR) ++ [labDocOf 12 ⟨"B-1", 9, true, none⟩ "1a2b3c4d"]) :=
  ⟨by decide,
   C9_auto_hash_id_concat.2.2.2.1 12 ⟨[], [], [], [], []⟩ ⟨"B-1", 9, true, none⟩ "1a2b3c4d"
     (by decide)⟩

theorem updateFirst_getElem_first_match (p : α → Bool) (f : α → α) :
    ∀ (l : List α) (i : Nat) (b : α),
      l[i]? = some b → p b = true →
      (∀ j, j < i → ∀ b', l[j]? = some b' → p b' = false) →
      (updateFirst p f l)[i]? = some (f b)
  | [], i, b, h, _, _ => by simp at h
  | x :: xs, 0, b, h, hp, _ => by
    simp only [List.getElem?_cons_zero, Option.some.injEq] at h
    subst h
    simp [updateFirst, hp]
  | x :: xs, i + 1, b, h, hp, hprev => by
    have hx : p x = false := hprev 0 (Nat.succ_pos i) x (by simp)
    simp only [updateFirst, hx, Bool.false_eq_true, if_false, List.getElem?_cons_succ]
    exact updateFirst_getElem_first_match p f xs i b (by simpa using h) hp
      (fun j hj b' hb' => hprev (j + 1) (by omega) b' (by simpa using hb'))

/-- C6 (amended): a processing step whose type is in the lookup table
unconditionally `$set`s the owning batch's phase to the mapped value,
whatever the current phase is — no monotonicity guard exists, so
phases can regress. -/
theorem C6_phase_overwritten_unconditionally :
    ∀ (host : Int) (st : Store) (p : ProcReq) (fresh : String) (ph : String)
      (i : Nat) (b : BatchR),
      truthy p.batch_id = true → truthy p.step_type = true →
      phaseMap p.step_type = PhaseLookup.phase ph →
      st.batches[i]? = some b → (b.id == p.batch_id) = true →
      (∀ j, j < i → ∀ b', st.batches[j]? = some b' → (b'.id == p.batch_id) = false) →
      ∃ resp st', recordProcessingStep host st p fresh = .ok (resp, st')
        ∧ st'.batches[i]? = some { b with statusPhase := ph } := by
  intro host st p fresh ph i b hb hs hmap hi hpb hprev
  simp only [recordProcessingStep, hb, hs, hmap]
  refine ⟨_, _, rfl, ?_⟩
  exact updateFirst_getElem_first_match _ _ st.batches i b hi hpb hprev

/-- Modelled from the spec: the lifecycle order of batch phases (schema
comment `CREATED → ... → READY_FOR_QA`; processing pipeline RECEIPT,
then DRYING, then GRINDING). -/
def phaseRank (s : String) : Nat :=
  if s = "CREATED" then 0
  else if s = "RECEIPT_DONE" then 1
  else if s = "DRYING_DONE" then 2
  else if s = "GRINDING_DONE" then 3
  else if s = "READY_FOR_QA" then 4
  else 0

/-- Phase of the batch with the given id (first match). -/
def batchPhase (st : Store) (id : String) : Option String :=
  (st.batches.find? (fun b => b.id == id)).map (fun b => b.statusPhase)

def cxCollectionReq : CollectionReq :=
  { scientificName := "Withania somnifera", collectorId := "farmer-123",
    geo := { lat := 10, lng := 76 }, timestamp := ⟨2025, 9, 16, 9, 0, 0, some 0, false⟩,
    clientEventId := none, ai_verified_confidence := none }

def cxProcReq (stepType : String) : ProcReq :=
  { batch_id := "B-WITHA-20250916-farmer-123", step_type := stepType,
    status := none, started_at := none, ended_at := none,
    params := none, post_step_metrics := none, notes := none }

/-- State after the first collection event of the day (batch created). -/
def cxStore1 : Store := (recordCollection 0 ⟨[], [], [], [], []⟩ cxCollectionReq "aa000001").2

def cxRunStep (stepType fresh : String) (st : Store) : Store :=
  match recordProcessingStep 0 st (cxProcReq stepType) fresh with
  | .ok (_, st') => st'
  | .error _ => st

def cxStore2 : Store := cxRunStep "GRINDING" "aa000002" cxStore1

def cxStore3 : Store := cxRunStep "DRYING" "aa000003" cxStore2

/-- C6 counterexample: from the empty store, a collection event creates
the batch (CREATED), a GRINDING step advances it to GRINDING_DONE, and
a subsequent DRYING step moves it BACK to DRYING_DONE — a regression
in the lifecycle order, refuting "monotonically advanced, never
regressed". -/
theorem C6_counterexample :
    batchPhase cxStore1 "B-WITHA-20250916-farmer-123" = some "CREATED"
  ∧ batchPhase cxStore2 "B-WITHA-20250916-farmer-123" = some "GRINDING_DONE"
  ∧ batchPhase cxStore3 "B-WITHA-20250916-farmer-123" = some "DRYING_DONE"
  ∧ phaseRank "DRYING_DONE" < phaseRank "GRINDING_DONE" := by
  refine ⟨by decide, by decide, by decide, by decide⟩

def cxWitnessBatch : BatchR :=
  { id := "B-1", scientificName := "X", collectorId := "c", dateUtc := "2025-09-16",
    statusPhase := "GRINDING_DONE", qualityGate := "PENDING",
    qrCodeUrl := none, chainStatus := none }

/-- C6 witness: a DRYING step on a batch currently at GRINDING_DONE
rewrites the phase to DRYING_DONE. -/
theorem C6_witness :
    ∃ resp st',
      recordProcessingStep 0 ⟨[], [], [cxWitnessBatch], [], []⟩
          ⟨"B-1", "DRYING", none, none, none, none, none, none⟩ "ff00ff00" =
        .ok (resp, st')
      ∧ st'.batches[0]? = some { cxWitnessBatch with statusPhase := "DRYING_DONE" } :=
  C6_phase_overwritten_unconditionally 0 ⟨[], [], [cxWitnessBatch], [], []⟩
    ⟨"B-1", "DRYING", none, none, none, none, none, none⟩ "ff00ff00" "DRYING_DONE" 0
    cxWitnessBatch (by decide) (by decide) (by decide) (by decide) (by decide)
    (fun j hj _ _ => absurd hj (Nat.not_lt_zero j))

theorem updateFirst_length (p : α → Bool) (f : α → α) :
    ∀ l : List α, (updateFirst p f l).length = l.length
  | [] => rfl
  | x :: xs => by
    simp only [updateFirst]
    split <;> simp [updateFirst_length p f xs]

theorem updateFirst_getElem_cases (p : α → Bool) (f : α → α) :
    ∀ (l : List α) (i : Nat),
      (updateFirst p f l)[i]? = l[i]? ∨
      ∃ b, l[i]? = some b ∧ p b = true ∧ (updateFirst p f l)[i]? = some (f b)
  | [], _ => Or.inl rfl
  | x :: xs, i => by
    by_cases hx : p x = true
    · simp only [updateFirst, hx, if_true]
      cases i with
      | zero => exact Or.inr ⟨x, by simp, hx, by simp⟩
      | succ n => left; simp
    · have hx' : p x = false := by revert hx; cases p x <;> simp
      simp only [updateFirst, hx', Bool.false_eq_true, if_false]
      cases i with
      | zero => left; simp
      | succ n =>
        simp only [List.getElem?_cons_succ]
        exact updateFirst_getElem_cases p f xs n

/-- C10: when a chain-status update on a batch supplies a hash, that
hash is written to the `hash` field of every collection event whose
`batchId` equals the batch id; events of other batches are returned
bit-for-bit unchanged, and no batch field other than `chainStatus`
changes (steps, labs and species are untouched). -/
theorem C10_chain_status_hash_propagation :
    ∀ (st : Store) (id : String) (status hash : Option String),
      truthyOpt status = true →
      allowedChain (toUpperStr (status.getD "")) = true →
      mongoMatched st.batches (fun b => b.id == id) = true →
      truthyOpt hash = true →
      ∃ resp st', setChainStatus st id status hash = .ok (resp, st')
        ∧ st'.events.length = st.events.length
        ∧ (∀ (i : Nat) (e : CEvent), st.events[i]? = some e →
             ((e.batchId == id) = true → st'.events[i]? = some { e with hash := hash })
           ∧ ((e.batchId == id) = false → st'.events[i]? = some e))
        ∧ st'.batches.length = st.batches.length
        ∧ (∀ i : Nat, st'.batches[i]? = st.batches[i]? ∨
             ∃ b, st.batches[i]? = some b ∧ (b.id == id) = true ∧
               st'.batches[i]? = some { b with chainStatus := some (toUpperStr (status.getD "")) })
        ∧ st'.steps = st.steps ∧ st'.labs = st.labs ∧ st'.species = st.species := by
  intro st id status hash hst hall hmatch hhash
  simp only [setChainStatus, hst, hall, hmatch, hhash]
  refine ⟨_, _, rfl, ?_, ?_, ?_, ?_, rfl, rfl, rfl⟩
  · simp [mongoUpdateMany]
  · intro i e he
    constructor
    · intro hb
      have hbeq : e.batchId = id := beq_iff_eq.mp hb
      simp [mongoUpdateMany, List.getElem?_map, he, hbeq]
    · intro hb
      have hne : ¬ e.batchId = id := beq_eq_false_iff_ne.mp hb
      simp [mongoUpdateMany, List.getElem?_map, he, hne]
  · simp [mongoUpdateOne, updateFirst_length]
  · intro i
    exact updateFirst_getElem_cases _ _ st.batches i

def c10Batch1 : BatchR :=
  { id := "B-1", scientificName := "X", collectorId := "c", dateUtc := "2025-09-16",
    statusPhase := "CREATED", qualityGate := "PENDING", qrCodeUrl := none, chainStatus := none }

def c10Batch2 : BatchR := { c10Batch1 with id := "B-2" }

def c10Ev (i bid : String) : CEvent :=
  { id := i, clientEventId := none, scientificName := "X", collectorId := "c",
    geo := { lat := 0, lng := 0 }, timestampUtc := 0, ai := none, status := "ACCEPTED",
    violations := [], batchId := bid, hash := none }

def c10Store : Store :=
  ⟨[], [c10Ev "CE-1" "B-1", c10Ev "CE-2" "B-2"], [c10Batch1, c10Batch2], [], []⟩

/-- C10 witness: a concrete chain-status update with a hash on batch
B-1, in a store that also holds an event and a batch of B-2. -/
theorem C10_witness :
    ∃ resp st', setChainStatus c10Store "B-1" (some "ready") (some "0xabc123") = .ok (resp, st')
      ∧ st'.events.length = c10Store.events.length
      ∧ (∀ (i : Nat) (e : CEvent), c10Store.events[i]? = some e →
           ((e.batchId == "B-1") = true → st'.events[i]? = some { e with hash := some "0xabc123" })
         ∧ ((e.batchId == "B-1") = false → st'.events[i]? = some e))
      ∧ st'.batches.length = c10Store.batches.length
      ∧ (∀ i : Nat, st'.batches[i]? = c10Store.batches[i]? ∨
           ∃ b, c10Store.batches[i]? = some b ∧ (b.id == "B-1") = true ∧
             st'.batches[i]? = some { b with chainStatus := some (toUpperStr ((some "ready").getD "")) })
      ∧ st'.steps = c10Store.steps ∧ st'.labs = c10Store.labs ∧ st'.species = c10Store.species :=
  C10_chain_status_hash_propagation c10Store "B-1" (some "ready") (some "0xabc123")
    (by decide) (by decide) (by decide) (by decide)

/-- Unfolding of `POST /collection` on the creation path (no
idempotency hit). -/
theorem recordCollection_created (host : Int) (st : Store) (r : CollectionReq) (fresh : String)
    (hfind : (if truthyOpt r.clientEventId then
                st.events.find? (fun e => e.clientEventId == r.clientEventId)
              else none) = none) :
    recordCollection host st r fresh =
      ({ eventId := (newCollectionEvent host st.species r fresh).id,
         batchId := (resolvedBatchOf host st.species r).id, wasCreated := true },
       { st with batches := ensureBatch st.batches (resolvedBatchOf host st.species r),
                 events := st.events ++ [newCollectionEvent host st.species r fresh] }) := by
  simp only [recordCollection, hfind]

/-- Unfolding of `POST /collection` on the idempotent-replay path. -/
theorem recordCollection_replay (host : Int) (st : Store) (r : CollectionReq) (fresh : String)
    (ex : CEvent) (htr : truthyOpt r.clientEventId = true)
    (hfind : st.events.find? (fun e => e.clientEventId == r.clientEventId) = some ex) :
    recordCollection host st r fresh =
      ({ eventId := ex.id, batchId := ex.batchId, wasCreated := false }, st) := by
  simp only [recordCollection, htr, if_true, hfind]

/-- C3: submitting the same collection event twice with the same
idempotency token returns the same event id both times, stores exactly
one event carrying the token, and the second call performs no state
change at all (no batch resolution, no event creation). -/
theorem C3_idempotent_replay :
    ∀ (host : Int) (st : Store) (r : CollectionReq) (f1 f2 t : String),
      r.clientEventId = some t → t ≠ "" →
      (∀ e ∈ st.events, e.clientEventId ≠ some t) →
      (recordCollection host (recordCollection host st r f1).2 r f2).1.eventId =
        (recordCollection host st r f1).1.eventId
    ∧ (recordCollection host st r f1).1.wasCreated = true
    ∧ (recordCollection host (recordCollection host st r f1).2 r f2).1.wasCreated = false
    ∧ (recordCollection host (recordCollection host st r f1).2 r f2).2 =
        (recordCollection host st r f1).2
    ∧ ((recordCollection host st r f1).2.events.filter
         (fun e => e.clientEventId == some t)).length = 1 := by
  intro host st r f1 f2 t hcid ht hnone
  have htr : truthyOpt r.clientEventId = true := by
    rw [hcid]
    simpa [truthyOpt, truthy] using ht
  have hfind0 : st.events.find? (fun e => e.clientEventId == r.clientEventId) = none := by
    apply List.find?_eq_none.mpr
    intro e he
    rw [hcid]
    simpa using hnone e he
  have h1 := recordCollection_created host st r f1 (by rw [hfind0]; simp)
  have hcid1 : (newCollectionEvent host st.species r f1).clientEventId = r.clientEventId := by
    simp [newCollectionEvent, htr]
  have hfind1 : ((recordCollection host st r f1).2.events).find?
      (fun e => e.clientEventId == r.clientEventId) =
      some (newCollectionEvent host st.species r f1) := by
    rw [h1]
    simp only [List.find?_append, hfind0, Option.none_or]
    simp [List.find?_cons, hcid1]
  have h2 := recordCollection_replay host (recordCollection host st r f1).2 r f2
    (newCollectionEvent host st.species r f1)
    htr hfind1
  refine ⟨?_, ?_, ?_, ?_, ?_⟩
  · rw [h2, h1]
  · rw [h1]
  · rw [h2]
  · rw [h2]
  · rw [h1]
    simp only [List.filter_append]
    have hnil : st.events.filter (fun e => e.clientEventId == some t) = [] := by
      apply List.filter_eq_nil_iff.mpr
      intro e he
      simpa using hnone e he
    rw [hnil]
    simp [List.filter_cons, hcid1, hcid]

def c3Req : CollectionReq :=
  { scientificName := "Withania somnifera", collectorId := "farmer-123",
    geo := { lat := 10, lng := 76 }, timestamp := ⟨2025, 9, 16, 9, 0, 0, some 0, false⟩,
    clientEventId := some "evt-1", ai_verified_confidence := none }

def c3Store : Store := ⟨[], [], [], [], []⟩

/-- C3 witness: the same concrete event submitted twice with token
"evt-1" replays the first response and stores one record. -/
theorem C3_witness :
    (recordCollection 0 (recordCollection 0 c3Store c3Req "00000001").2 c3Req "00000002").1.eventId =
      (recordCollection 0 c3Store c3Req "00000001").1.eventId
  ∧ (recordCollection 0 c3Store c3Req "00000001").1.wasCreated = true
  ∧ (recordCollection 0 (recordCollection 0 c3Store c3Req "00000001").2 c3Req "00000002").1.wasCreated = false
  ∧ (recordCollection 0 (recordCollection 0 c3Store c3Req "00000001").2 c3Req "00000002").2 =
      (recordCollection 0 c3Store c3Req "00000001").2
  ∧ ((recordCollection 0 c3Store c3Req "00000001").2.events.filter
       (fun e => e.clientEventId == some "evt-1")).length = 1 :=
  C3_idempotent_replay 0 c3Store c3Req "00000001" "00000002" "evt-1" rfl (by decide)
    (fun e he => absurd he (List.not_mem_nil e))

def c8Batch : BatchR :=
  { id := "B-1", scientificName := "X", collectorId := "c", dateUtc := "2025-09-16",
    statusPhase := "CREATED", qualityGate := "PENDING", qrCodeUrl := none, chainStatus := none }

def c8ProcReq (stepType : String) : ProcReq :=
  { batch_id := "B-1", step_type := stepType, status := none, started_at := none,
    ended_at := none, params := none, post_step_metrics := none, notes := none }

def c8Run (stepType : String) : Store :=
  match recordProcessingStep 0 ⟨[], [], [c8Batch], [], []⟩ (c8ProcReq stepType) "00c80001" with
  | .ok (_, st') => st'
  | .error _ => ⟨[], [], [c8Batch], [], []⟩

/-- C8 counterexample: the step type "toString" is outside the
RECEIPT/DRYING/GRINDING table, yet `POST /processing` does NOT leave
the batch's phase untouched: the object-literal lookup finds the
inherited `Object.prototype.toString` (truthy), `if (nextPhase)`
fires, and the batch's phase is overwritten with mongoose's string
cast of that function — refuting "for every step type outside this
table ... the batch's phase field is left untouched". -/
theorem C8_counterexample :
    (["RECEIPT", "DRYING", "GRINDING"].contains "toString") = false
  ∧ phaseMap "toString" = PhaseLookup.protoMember "toString"
  ∧ batchPhase ⟨[], [], [c8Batch], [], []⟩ "B-1" = some "CREATED"
  ∧ batchPhase (c8Run "toString") "B-1" =
      some "function toString() \x7b [native code] \x7d"
  ∧ batchPhase (c8Run "toString") "B-1" ≠ some "CREATED" := by
  refine ⟨by decide, by decide, by decide, by decide, by decide⟩

/-- C8 (amended): the phase transition is the fixed lookup
RECEIPT→RECEIPT_DONE, DRYING→DRYING_DONE, GRINDING→GRINDING_DONE; for
every step type outside this table that is not an `Object.prototype`
member name the lookup is `undefined` and `POST /processing` leaves
the batch store entirely untouched (a no-op, not an error) while still
creating the processing-step record.  For the twelve inherited member
names the lookup is truthy, so the handler DOES fire a phase update:
the eleven function-valued members overwrite the first matching
batch's phase with the string cast of the inherited function, while
`__proto__` is uncastable, so that update writes nothing (the step
record is still created; the real request then errors). -/
theorem C8_phase_map_fixed_lookup :
    phaseMap "RECEIPT" = PhaseLookup.phase "RECEIPT_DONE"
  ∧ phaseMap "DRYING" = PhaseLookup.phase "DRYING_DONE"
  ∧ phaseMap "GRINDING" = PhaseLookup.phase "GRINDING_DONE"
  ∧ (∀ s : String, s ≠ "RECEIPT" → s ≠ "DRYING" → s ≠ "GRINDING" →
       objectProtoKeys.contains s = false → phaseMap s = PhaseLookup.absent)
  ∧ (∀ s ∈ objectProtoKeys, phaseMap s = PhaseLookup.protoMember s)
  ∧ (∀ (host : Int) (st : Store) (p : ProcReq) (fresh : String),
        truthy p.batch_id = true → truthy p.step_type = true →
        phaseMap p.step_type = PhaseLookup.absent →
        recordProcessingStep host st p fresh =
          .ok ({ stepId := "PS-" ++ fresh, stepType := p.step_type,
                 batchId := p.batch_id, batchPhase := none },
               { st with steps := st.steps ++ [procDocOf host p fresh] }))
  ∧ (∀ (host : Int) (st : Store) (p : ProcReq) (fresh : String) (nm junk : String)
       (i : Nat) (b : BatchR),
        truthy p.batch_id = true → truthy p.step_type = true →
        phaseMap p.step_type = PhaseLookup.protoMember nm →
        protoMemberCast nm = some junk →
        st.batches[i]? = some b → (b.id == p.batch_id) = true →
        (∀ j, j < i → ∀ b', st.batches[j]? = some b' → (b'.id == p.batch_id) = false) →
        ∃ resp st', recordProcessingStep host st p fresh = .ok (resp, st')
          ∧ st'.steps = st.steps ++ [procDocOf host p fresh]
          ∧ st'.batches[i]? = some { b with statusPhase := junk })
  ∧ protoMemberCast "__proto__" = none
  ∧ (∀ (host : Int) (st : Store) (p : ProcReq) (fresh : String) (nm : String),
        truthy p.batch_id = true → truthy p.step_type = true →
        phaseMap p.step_type = PhaseLookup.protoMember nm →
        protoMemberCast nm = none →
        recordProcessingStep host st p fresh =
          .ok ({ stepId := "PS-" ++ fresh, stepType := p.step_type,
                 batchId := p.batch_id, batchPhase := none },
               { st with steps := st.steps ++ [procDocOf host p fresh] })) := by
  refine ⟨rfl, rfl, rfl, ?_, by decide, ?_, ?_, rfl, ?_⟩
  · intro s h1 h2 h3 h4
    have h4m : s ∉ objectProtoKeys := by simpa using h4
    simp [phaseMap, h1, h2, h3, h4m]
  · intro host st p fresh hb hs hmap
    simp only [recordProcessingStep, hb, hs, hmap]
    rfl
  · intro host st p fresh nm junk i b hb hs hmap hjunk hi hpb hprev
    simp only [recordProcessingStep, hb, hs, hmap, hjunk]
    refine ⟨_, _, rfl, rfl, ?_⟩
    exact updateFirst_getElem_first_match _ _ st.batches i b hi hpb hprev
  · intro host st p fresh nm hb hs hmap hnone
    simp only [recordProcessingStep, hb, hs, hmap, hnone]
    rfl

/-- C8 witness: an ordinary unmapped step type ("PACKING") creates the
step record and performs no batch mutation, while the inherited name
"valueOf" overwrites the phase of the (first-matching) batch with the
cast of the inherited function. -/
theorem C8_witness :
    (recordProcessingStep 0 ⟨[], [], [], [], []⟩
        ⟨"B-X-20250916-c1", "PACKING", none, none, none, none, none, none⟩ "0a0b0c0d" =
      .ok ({ stepId := "PS-" ++ "0a0b0c0d", stepType := "PACKING",
             batchId := "B-X-20250916-c1", batchPhase := none },
           { (⟨[], [], [], [], []⟩ : Store) with
             steps := [] ++ [procDocOf 0
               ⟨"B-X-20250916-c1", "PACKING", none, none, none, none, none, none⟩ "0a0b0c0d"] }))
  ∧ (∃ resp st',
      recordProcessingStep 0 ⟨[], [], [c8Batch], [], []⟩ (c8ProcReq "valueOf") "0a0b0c0e" =
        .ok (resp, st')
      ∧ st'.steps = ([] : List PStepR) ++ [procDocOf 0 (c8ProcReq "valueOf") "0a0b0c0e"]
      ∧ st'.batches[0]? =
          some { c8Batch with statusPhase := "function valueOf() \x7b [native code] \x7d" }) :=
  ⟨C8_phase_map_fixed_lookup.2.2.2.2.2.1 0 ⟨[], [], [], [], []⟩
     ⟨"B-X-20250916-c1", "PACKING", none, none, none, none, none, none⟩ "0a0b0c0d"
     (by decide) (by decide) (by decide),
   C8_phase_map_fixed_lookup.2.2.2.2.2.2.1 0 ⟨[], [], [c8Batch], [], []⟩
     (c8ProcReq "valueOf") "0a0b0c0e" "valueOf" "function valueOf() \x7b [native code] \x7d" 0
     c8Batch (by decide) (by decide) (by decide) (by decide) (by decide) (by decide)
     (fun j hj _ _ => absurd hj (Nat.not_lt_zero j))⟩
